import Mathlib

/-
Verification development for the Shopify product-migration utility
(src/shopify_migration/main.py and src/shopify_migration/shopify_client.py).

The program passes Python values (parsed JSON) around; we embed those values
as a mutual inductive type `JVal` (JSON-like values), with `JArr` for Python
lists and `JObj` for Python dicts (association sequences with string keys,
as produced by JSON parsing).  Python's dynamic behaviours that the program
relies on (dict .get with default, truthiness tests, in-place key removal,
dict-assignment overwrite) are modelled by explicit functions below.
Operations that can raise are modelled with `Option`/`Except`; HTTP calls
are modelled by environments that supply each call's outcome.
-/

mutual
inductive JVal where
  | str : String → JVal
  | num : Int → JVal
  | bool : Bool → JVal
  | null : JVal
  | arr : JArr → JVal
  | obj : JObj → JVal
deriving DecidableEq

inductive JArr where
  | nil : JArr
  | cons : JVal → JArr → JArr
deriving DecidableEq

inductive JObj where
  | nil : JObj
  | cons : String → JVal → JObj → JObj
deriving DecidableEq
end

/-- Python list → Lean list, for stating properties of array contents. -/
def JArr.toList : JArr → List JVal
  | .nil => []
  | .cons v tl => v :: tl.toList

def JArr.isEmpty : JArr → Bool
  | .nil => true
  | .cons _ _ => false

def JArr.map (f : JVal → JVal) : JArr → JArr
  | .nil => .nil
  | .cons v tl => .cons (f v) (JArr.map f tl)

/-- Apply a fallible transform to every element; `none` models an exception
raised partway through a Python for-loop over the list. -/
def JArr.mapOpt (f : JVal → Option JVal) : JArr → Option JArr
  | .nil => some .nil
  | .cons v tl =>
    match f v, JArr.mapOpt f tl with
    | some v2, some tl2 => some (.cons v2 tl2)
    | _, _ => none

def JArr.containsVal (a : JArr) (x : JVal) : Bool :=
  match a with
  | .nil => false
  | .cons v tl => v == x || tl.containsVal x

/-- Python `d.get(k)` / `d[k]` lookup on a dict: first binding for the key. -/
def JObj.get : JObj → String → Option JVal
  | .nil, _ => none
  | .cons k v tl, key => if k = key then some v else tl.get key

/-- Python `k in d`. -/
def JObj.hasKey : JObj → String → Bool
  | .nil, _ => false
  | .cons k _ tl, key => k == key || tl.hasKey key

/-- Python `d[k] = v`: replace the binding in place if the key is present,
append it otherwise. -/
def JObj.set : JObj → String → JVal → JObj
  | .nil, key, v => .cons key v .nil
  | .cons k w tl, key, v =>
    if k = key then .cons k v tl else .cons k w (tl.set key v)

/-- Python dict comprehension keeping the keys satisfying `p`. -/
def JObj.filterKeys (p : String → Bool) : JObj → JObj
  | .nil => .nil
  | .cons k v tl => if p k then .cons k v (tl.filterKeys p) else tl.filterKeys p

/-- Python `d.pop(k, None)` applied for every key in `ks`. -/
def JObj.removeKeys (d : JObj) (ks : List String) : JObj :=
  d.filterKeys (fun k => !ks.contains k)

def JObj.keys : JObj → List String
  | .nil => []
  | .cons k _ tl => k :: tl.keys

def JObj.isEmpty : JObj → Bool
  | .nil => true
  | .cons _ _ _ => false

/-- Python truthiness (`if x:`) of a JSON value: empty string, zero, False,
None, empty list and empty dict are falsy; everything else is truthy. -/
def JVal.falsy : JVal → Bool
  | .str s => s == ""
  | .num n => n == 0
  | .bool b => !b
  | .null => true
  | .arr a => a.isEmpty
  | .obj o => o.isEmpty

/-- Truthiness of a `dict.get` result: a missing key yields Python `None`,
which is falsy. -/
def optFalsy : Option JVal → Bool
  | none => true
  | some v => v.falsy

/- ===================== ShopifyClient (shopify_client.py) ===================== -/

/-- Outcome of the single authenticated GET issued by
`ShopifyClient.validate_credentials` (shopify_client.py lines 51-57):
the request either succeeds, raises `httpx.HTTPStatusError` with some status
code at `raise_for_status`, or raises some other exception. -/
inductive ReqOutcome where
  | ok : ReqOutcome
  | httpStatusError : Nat → ReqOutcome
  | otherError : ReqOutcome
deriving DecidableEq

/-- Model of `ShopifyClient.validate_credentials` (shopify_client.py lines
44-68).  The body returns True after a successful request; the two `except`
clauses catch `httpx.HTTPStatusError` (logging a 401 distinctly) and every
other `Exception`, returning False.  Totality of this function models that
the method never raises. -/
def validate_credentials : ReqOutcome → Bool
  | .ok => true
  | .httpStatusError _ => false
  | .otherError => false

/-- Model of the validation test in `ShopifyClient.get_products`
(shopify_client.py lines 107-110): a response entry counts as valid when it
is a dict containing the key "id". -/
def productHasId : JVal → Bool
  | .obj d => (d.get "id").isSome
  | _ => false

/-- Model of `ShopifyClient.get_products` after a well-shaped response
(shopify_client.py lines 103-112): the loop over `products` only emits a
log warning for each entry that is not a dict with an "id" key (its body is
`log.warning(...); continue`), and the function then returns `products`
itself.  Result: (returned list, number of warnings logged). -/
def get_products_postprocess (products : List JVal) : List JVal × Nat :=
  let warnings := products.foldl (fun n p => if productHasId p then n else n + 1) 0
  (products, warnings)

/-- The top-level allow-list of `ShopifyClient._prepare_product_data`
(shopify_client.py lines 256-259). -/
def allowed_fields : List String :=
  ["title", "body_html", "vendor", "product_type", "handle",
   "status", "variants", "images", "options"]

/-- The per-variant keys popped by `ShopifyClient._prepare_product_data`
(shopify_client.py line 270). -/
def keys_to_remove : List String :=
  ["admin_graphql_api_id", "product_id", "id", "image_id",
   "inventory_item_id", "old_inventory_quantity", "requires_shipping"]

/-- One iteration of the variant-cleaning loop (shopify_client.py lines
268-272): `variant.pop(key, None)` for each key in `keys_to_remove`.
`pop` exists only on dicts; on any other element the loop raises
(AttributeError), modelled as `none`. -/
def popVariantKeys : JVal → Option JVal
  | .obj d => some (.obj (d.removeKeys keys_to_remove))
  | _ => none

/-- The variant-cleaning pass over `cleaned_data["variants"]`
(shopify_client.py lines 265-272).  Iterating a non-empty dict yields its
string keys and `key.pop` raises; iterating a non-empty string yields
characters and `char.pop` raises; `len()` raises on numbers, booleans and
None; empty-dict and empty-string values iterate zero times and are left
untouched. -/
def cleanVariantsVal : JVal → Option JVal
  | .arr vs => (JArr.mapOpt popVariantKeys vs).map JVal.arr
  | .obj o => if o.isEmpty then some (.obj o) else none
  | .str s => if s == "" then some (.str s) else none
  | _ => none

/-- Python substring test `"src" in s` for a string `s`. -/
def strContainsSrc (s : String) : Bool := (s.splitOn "src").length != 1

/-- One iteration of the image-cleaning loop (shopify_client.py lines
279-287).  Outer `none` models a raised exception; `some none` models an
entry filtered out (no "src"); `some (some i)` a kept, cleaned image.
For a dict: keep src and alt (alt defaulting to "" when absent).  For a
string, `"src" in image` is a substring test and indexing then raises; for
a list it is membership and indexing then raises; on other values `in`
itself raises. -/
def cleanImageItem : JVal → Option (Option JVal)
  | .obj d =>
    match d.get "src" with
    | some srcv =>
      some (some (.obj (.cons "src" srcv (.cons "alt" ((d.get "alt").getD (.str "")) .nil))))
    | none => some none
  | .str s => if strContainsSrc s then none else some none
  | .arr l => if l.containsVal (.str "src") then none else some none
  | _ => none

/-- The image-cleaning loop over an images array, collecting the kept
entries in order. -/
def collectImages : JArr → Option JArr
  | .nil => some .nil
  | .cons v tl =>
    match cleanImageItem v, collectImages tl with
    | some (some i), some rest => some (.cons i rest)
    | some none, some rest => some rest
    | _, _ => none

/-- The image-cleaning pass over `cleaned_data["images"]` (shopify_client.py
lines 275-289).  `cleaned_images` is always a fresh list and is assigned to
the "images" key afterwards, so any value that iterates without raising is
replaced by the array of kept entries: an empty dict or any string iterates
to nothing kept (single characters cannot contain "src"); a non-empty dict
iterates its keys, raising if a key contains "src" as a substring; `len()`
raises on numbers, booleans and None. -/
def cleanImagesVal : JVal → Option JVal
  | .arr imgs => (collectImages imgs).map JVal.arr
  | .obj o => if o.keys.any strContainsSrc then none else some (.arr .nil)
  | .str _ => some (.arr .nil)
  | _ => none

/-- The dict comprehension of shopify_client.py line 262: keep only the
allow-listed top-level fields. -/
def prepare_cleaned (product_data : JObj) : JObj :=
  product_data.filterKeys (fun k => allowed_fields.contains k)

/-- The variant-cleaning block of shopify_client.py lines 265-272, applied
when the "variants" key is present. -/
def prepare_after_variants (cleaned : JObj) : Option JObj :=
  match cleaned.get "variants" with
  | none => some cleaned
  | some v =>
    match cleanVariantsVal v with
    | none => none
    | some v2 => some (cleaned.set "variants" v2)

/-- The image-cleaning block of shopify_client.py lines 275-289, applied
when the "images" key is present. -/
def prepare_after_images (c2 : JObj) : Option JObj :=
  match c2.get "images" with
  | none => some c2
  | some v =>
    match cleanImagesVal v with
    | none => none
    | some v2 => some (c2.set "images" v2)

/-- Model of `ShopifyClient._prepare_product_data` (shopify_client.py lines
245-291): keep the allow-listed top-level fields, strip the server-managed
keys from every variant, and rebuild the images as src/alt pairs.  `none`
models an exception escaping the method. -/
def prepare_product_data (product_data : JObj) : Option JObj :=
  match prepare_after_variants (prepare_cleaned product_data) with
  | none => none
  | some c2 => prepare_after_images c2

/-- The in-place effect of the variant-cleaning loop on the caller's
variants value: the cleaned dict and the caller share the very list and
variant dicts, so each variant dict loses the popped keys; non-list values
that survive the loop are unchanged. -/
def stripServerKeysVal : JVal → JVal
  | .arr vs => .arr (vs.map (fun v =>
      match v with
      | .obj d => .obj (d.removeKeys keys_to_remove)
      | x => x))
  | x => x

/-- The caller-visible state of `product_data` after
`_prepare_product_data` completes (shopify_client.py lines 262-272): the
dict comprehension builds a fresh top-level dict but shares the variants
list and its dicts, so the pops mutate the caller's variants in place; the
images key of the caller is untouched because a fresh `cleaned_images` list
is assigned only into the cleaned dict.  `none` when the transform raises.
`create_product` (line 140) and `update_product` (line 188) apply the
transform directly to the caller-supplied dict. -/
def prepare_caller_state (product_data : JObj) : Option JObj :=
  (prepare_product_data product_data).map (fun _ =>
    match product_data.get "variants" with
    | some v => product_data.set "variants" (stripServerKeysVal v)
    | none => product_data)

/-- Model of the request body built by `ShopifyClient.create_collection`
(shopify_client.py lines 327-342): the `title` parameter (annotated `str`,
default-empty `description`) is embedded as the custom_collection's title,
the description as its body_html; nothing else is sent. -/
def create_collection_payload (title : JVal) (description : JVal) : JVal :=
  .obj (.cons "custom_collection"
    (.obj (.cons "title" title (.cons "body_html" description .nil))) .nil)

/- ===================== Migration orchestrator (main.py) ===================== -/

/-- The statistics counters of `migrate_products` (main.py lines 49-53). -/
structure Counts where
  created_count : Nat
  updated_count : Nat
  skipped_count : Nat
  error_count : Nat
  collection_count : Nat
deriving DecidableEq

def zeroCounts : Counts := ⟨0, 0, 0, 0, 0⟩
def skip1 : Counts := ⟨0, 0, 1, 0, 0⟩
def err1 : Counts := ⟨0, 0, 0, 1, 0⟩
def upd1 : Counts := ⟨0, 1, 0, 0, 0⟩
def cre1 : Counts := ⟨1, 0, 0, 0, 0⟩
def coll1 : Counts := ⟨0, 0, 0, 0, 1⟩

def addCounts (a b : Counts) : Counts :=
  ⟨a.created_count + b.created_count, a.updated_count + b.updated_count,
   a.skipped_count + b.skipped_count, a.error_count + b.error_count,
   a.collection_count + b.collection_count⟩

/-- The sum the spec's final-report property is about: created + updated +
skipped + errors. -/
def countsSum4 (c : Counts) : Nat :=
  c.created_count + c.updated_count + c.skipped_count + c.error_count

/-- The remote calls the orchestrator can issue, with the arguments that
identify them. -/
inductive Call where
  | getProductCollections : JVal → Call
  | getProductBySku : JVal → Call
  | updateProduct : JVal → Call
  | createProduct : Call
  | getCollectionByTitle : JVal → Call
  | createCollection : JVal → Call
  | addProductToCollection : JVal → JVal → Call
deriving DecidableEq

/-- Outcomes the environment supplies for the calls made while processing
one source product in phase 1: the source-side collections fetch (main.py
line 77), the destination SKU lookup (line 83), and the destination write,
update or create (lines 89 and 98).  `Except.error` models a raised
exception. -/
structure ProdEnv where
  collectionsResult : Except Unit (List JVal)
  lookupResult : Except Unit (Option JVal)
  writeResult : Except Unit JVal

/-- The in-memory `product_collections` dict of main.py line 56, keyed by
destination product id. -/
abbrev PMap := List (JVal × List JVal)

/-- Python dict assignment `product_collections[k] = v` (main.py line 107):
overwrite the existing binding or append a new one. -/
def pmapSet (pm : PMap) (k : JVal) (v : List JVal) : PMap :=
  match pm with
  | [] => [(k, v)]
  | (k1, v1) :: tl => if k1 = k then (k, v) :: tl else (k1, v1) :: pmapSet tl k v

def pmapGet (pm : PMap) (k : JVal) : Option (List JVal) :=
  match pm with
  | [] => none
  | (k1, v1) :: tl => if k1 = k then some v1 else pmapGet tl k

/-- Model of main.py lines 105-107: `if migrated_product and
source_collections: product_collections[migrated_product["id"]] = ...`.
Both conditions are truthiness tests; indexing a truthy non-dict or a dict
without "id" raises, reaching the outer handler of lines 111-114 which adds
one more error after the write counter was already bumped. -/
def afterWrite (base : Counts) (migrated : Option JVal) (srcColls : List JVal)
    (pm : PMap) : Counts × PMap :=
  match migrated with
  | none => (base, pm)
  | some m =>
    if m.falsy then (base, pm)
    else if srcColls.isEmpty then (base, pm)
    else
      match m with
      | .obj md =>
        match md.get "id" with
        | some mid => (base, pmapSet pm mid srcColls)
        | none => (addCounts base err1, pm)
      | _ => (addCounts base err1, pm)

/-- Model of main.py lines 75-107 once a truthy first-variant SKU is in
hand: best-effort collections fetch (a missing "id" raises inside the inner
try of lines 76-81 and yields an empty set, as does a failing fetch), SKU
lookup (a raise escapes to the outer handler), then the update-or-create
branch of lines 86-103 (`if existing_product:` is a truthiness test, and
`existing_product["id"]` raising is caught by the inner handler as an
update failure), then the recording step. -/
def processWithSku (env : ProdEnv) (pm : PMap) (d : JObj) (skuv : JVal) :
    Counts × PMap × List Call :=
  let fetch : List JVal × List Call :=
    match d.get "id" with
    | none => ([], [])
    | some pid =>
      match env.collectionsResult with
      | .error _ => ([], [Call.getProductCollections pid])
      | .ok cs => (cs, [Call.getProductCollections pid])
  let srcColls := fetch.1
  let calls0 := fetch.2 ++ [Call.getProductBySku skuv]
  match env.lookupResult with
  | .error _ => (err1, pm, calls0)
  | .ok found =>
    let existing : Option JVal :=
      match found with
      | some e => if e.falsy then none else some e
      | none => none
    match existing with
    | some ex =>
      match ex with
      | .obj exd =>
        match exd.get "id" with
        | none => (err1, pm, calls0)
        | some exid =>
          match env.writeResult with
          | .ok m =>
            let r := afterWrite upd1 (some m) srcColls pm
            (r.1, r.2, calls0 ++ [Call.updateProduct exid])
          | .error _ => (err1, pm, calls0 ++ [Call.updateProduct exid])
      | _ => (err1, pm, calls0)
    | none =>
      match env.writeResult with
      | .ok m =>
        let r := afterWrite cre1 (some m) srcColls pm
        (r.1, r.2, calls0 ++ [Call.createProduct])
      | .error _ => (err1, pm, calls0 ++ [Call.createProduct])

/-- Model of one iteration of the phase-1 product loop (main.py lines
58-114) for a source product that is a dict — the only case in which the
per-product handler of lines 111-114 can complete, since its log line
calls `product.get`.  `product.get("variants", [])` defaults to an empty
list; a falsy variants value skips the product, a truthy non-list raises at
indexing (outer handler, one error), a first variant that is not a dict
raises at `.get` (outer handler, one error), a falsy or missing SKU skips,
and otherwise the write pipeline runs.  The result is the counter delta,
the updated recording map, and the calls issued. -/
def processProduct (env : ProdEnv) (pm : PMap) (d : JObj) :
    Counts × PMap × List Call :=
  match (d.get "variants").getD (.arr .nil) with
  | .arr .nil => (skip1, pm, [])
  | .arr (.cons v _) =>
    match v with
    | .obj vd =>
      match vd.get "sku" with
      | none => (skip1, pm, [])
      | some skuv =>
        if skuv.falsy then (skip1, pm, [])
        else processWithSku env pm d skuv
    | _ => (err1, pm, [])
  | other => if other.falsy then (skip1, pm, []) else (err1, pm, [])

/-- One entry of the phase-1 loop, any value.  A non-dict entry raises at
`product.get("variants", [])` (main.py line 61), and the outer handler then
raises AGAIN at line 113 — `product.get('title', 'Unknown')` has no meaning
on a non-dict — after bumping `error_count` at line 112; that second
exception escapes the loop and the `try` of line 29 re-raises it (lines
170-172), aborting the run: no final report is produced.  `none` models
this abort (the in-flight counters are never reported). -/
def processSourceEntry (env : ProdEnv) (pm : PMap) (product : JVal) :
    Option (Counts × PMap × List Call) :=
  match product with
  | .obj d => some (processProduct env pm d)
  | _ => none

def runPhase1Aux (acc : Counts × PMap × List Call) :
    List (JVal × ProdEnv) → Option (Counts × PMap × List Call)
  | [] => some acc
  | (p, env) :: rest =>
    match processSourceEntry env acc.2.1 p with
    | none => none
    | some r => runPhase1Aux (addCounts acc.1 r.1, r.2.1, acc.2.2 ++ r.2.2) rest

/-- Phase 1 of `migrate_products` (main.py lines 58-114): process the
source products in listing order, each with the outcomes its calls receive,
accumulating counters, the recording map and the call trace; `none` when a
non-dict entry crashes the per-product handler and aborts the run. -/
def runPhase1 (l : List (JVal × ProdEnv)) : Option (Counts × PMap × List Call) :=
  runPhase1Aux (zeroCounts, [], []) l

/-- Outcomes the environment supplies for one phase-2 iteration: the
destination collection lookup (main.py line 128), the collection creation
(line 138) and the association call (line 147). -/
structure CollEnv where
  lookupResult : Except Unit (Option JVal)
  createResult : Except Unit JVal
  addResult : Except Unit JVal

/-- The `collection_data` dict built by main.py lines 132-136 from the
source collection's fields, with `published` defaulting to True. -/
def phase2_collection_data (cd : JObj) (t : JVal) : JObj :=
  .cons "title" t
    (.cons "body_html" ((cd.get "body_html").getD (.str ""))
      (.cons "published" ((cd.get "published").getD (.bool true)) .nil))

/-- The association step of main.py lines 145-151, inside its own
try/except: `dest_collection["id"]` raising (missing key or non-dict) is
caught and only logged; an association failure is caught and only logged;
success bumps `collection_count`. -/
def assocStep (pid : JVal) (dc : JVal) (env : CollEnv) (calls : List Call) :
    Counts × List Call :=
  match dc with
  | .obj dcd =>
    match dcd.get "id" with
    | none => (zeroCounts, calls)
    | some cid =>
      match env.addResult with
      | .ok _ => (coll1, calls ++ [Call.addProductToCollection pid cid])
      | .error _ => (zeroCounts, calls ++ [Call.addProductToCollection pid cid])
  | _ => (zeroCounts, calls)

/-- Model of one iteration of the phase-2 collection loop (main.py lines
125-158) for a collection record that is a dict — the only case in which
the outer handler of lines 155-158 can complete, since its log line calls
`collection.get`.  A missing "title" (KeyError at line 128) and a raising
destination lookup both reach that handler, which counts one error;
`if not dest_collection:` is a truthiness test; a creation failure is
caught by the inner handler of lines 137-143, which logs and `continue`s
without touching `error_count`; the association step never touches
`error_count` either. -/
def processCollection (env : CollEnv) (pid : JVal) (cd : JObj) :
    Counts × List Call :=
  match cd.get "title" with
  | none => (err1, [])
  | some t =>
    match env.lookupResult with
    | .error _ => (err1, [Call.getCollectionByTitle t])
    | .ok found =>
      let existing : Option JVal :=
        match found with
        | some f => if f.falsy then none else some f
        | none => none
      match existing with
      | none =>
        let payload := create_collection_payload (.obj (phase2_collection_data cd t)) (.str "")
        match env.createResult with
        | .error _ => (zeroCounts, [Call.getCollectionByTitle t, Call.createCollection payload])
        | .ok dc => assocStep pid dc env [Call.getCollectionByTitle t, Call.createCollection payload]
      | some dc => assocStep pid dc env [Call.getCollectionByTitle t]

/-- One entry of the phase-2 loop, any value.  A non-dict collection record
raises at `collection["title"]` (line 128), and the outer handler's log
line then raises AGAIN — `collection.get('title', 'Unknown')` (line 156)
has no meaning on a non-dict — BEFORE `error_count` is touched (line 157);
that second exception escapes the loop and the run aborts with no final
report, modelled as `none`. -/
def processCollectionEntry (env : CollEnv) (pid : JVal) (collection : JVal) :
    Option (Counts × List Call) :=
  match collection with
  | .obj cd => some (processCollection env pid cd)
  | _ => none

def runPhase2Aux (acc : Counts × List Call) :
    List ((JVal × JVal) × CollEnv) → Option (Counts × List Call)
  | [] => some acc
  | ((pid, c), env) :: rest =>
    match processCollectionEntry env pid c with
    | none => none
    | some r => runPhase2Aux (addCounts acc.1 r.1, acc.2 ++ r.2) rest

/-- Phase 2 of `migrate_products` (main.py lines 124-158): iterate the
recorded (destination product id, source collection) pairs in order;
`none` when a non-dict record crashes the outer handler and aborts the
run. -/
def runPhase2 (l : List ((JVal × JVal) × CollEnv)) : Option (Counts × List Call) :=
  runPhase2Aux (zeroCounts, []) l

/-- The iteration order of main.py lines 124-125: for each recorded map
entry, each of its collections. -/
def phase2Pairs (pm : PMap) : List (JVal × JVal) :=
  pm.flatMap (fun pc => pc.2.map (fun c => (pc.1, c)))

/-- The whole of `migrate_products` after a successful product listing
(main.py lines 49-168): phase 1 over the listed products, then phase 2 over
the recorded pairs, with final counters, map and call trace.  `none` when
either loop's handler crashed: the run then aborts via lines 170-172 and
the final statistics of lines 160-168 are never reported. -/
def migrate_products (p1 : List (JVal × ProdEnv)) (envs2 : List CollEnv) :
    Option (Counts × PMap × List Call) :=
  match runPhase1 p1 with
  | none => none
  | some r1 =>
    match runPhase2 ((phase2Pairs r1.2.1).zip envs2) with
    | none => none
    | some r2 => some (addCounts r1.1 r2.1, r1.2.1, r1.2.2 ++ r2.2)

/-- Whether one phase-2 iteration over a dict collection record raises
outside the two inner handlers and therefore reaches (and completes) the
error-counting outer handler of main.py lines 155-158: a missing title or a
raising destination lookup.  A non-dict record never reaches the
error-count increment — the handler's own log line crashes first and the
run aborts (see `processCollectionEntry`) — so this predicate, which is
only consulted for runs that complete, is false there. -/
def collIterRaises (env : CollEnv) (collection : JVal) : Bool :=
  match collection with
  | .obj cd =>
    match cd.get "title" with
    | none => true
    | some _ =>
      match env.lookupResult with
      | .error _ => true
      | .ok _ => false
  | _ => false


/- ===================== Shared lemmas about the embedding ===================== -/

theorem jobj_isEmpty_false_of_get {d : JObj} {k : String} {v : JVal}
    (h : d.get k = some v) : d.isEmpty = false := by
  cases d with
  | nil => simp [JObj.get] at h
  | cons k1 v1 tl => rfl

theorem jobj_get_set_same : (d : JObj) → (k : String) → (v : JVal) →
    (d.set k v).get k = some v
  | .nil, k, v => by simp [JObj.set, JObj.get]
  | .cons k1 v1 tl, k, v => by
    by_cases h : k1 = k
    · simp [JObj.set, h, JObj.get]
    · simp [JObj.set, h, JObj.get, jobj_get_set_same tl k v]

theorem jobj_get_set_other : (d : JObj) → (k k2 : String) → (v : JVal) →
    k2 ≠ k → (d.set k v).get k2 = d.get k2
  | .nil, k, k2, v, h => by
    simp [JObj.set, JObj.get, Ne.symm h]
  | .cons k1 v1 tl, k, k2, v, h => by
    by_cases h1 : k1 = k
    · subst h1
      simp [JObj.set, JObj.get, Ne.symm h]
    · simp [JObj.set, h1, JObj.get, jobj_get_set_other tl k k2 v h]

theorem jobj_hasKey_set : {d : JObj} → {k k2 : String} → {v : JVal} →
    (d.set k v).hasKey k2 = true → d.hasKey k2 = true ∨ k2 = k
  | .nil, k, k2, v, h => by
    simp [JObj.set, JObj.hasKey] at h
    exact Or.inr h.symm
  | .cons k1 v1 tl, k, k2, v, h => by
    by_cases h1 : k1 = k
    · subst h1
      simp [JObj.set, JObj.hasKey] at h ⊢
      tauto
    · simp [JObj.set, h1, JObj.hasKey] at h ⊢
      rcases h with h | h
      · exact Or.inl (Or.inl h)
      · rcases jobj_hasKey_set h with h2 | h2
        · exact Or.inl (Or.inr h2)
        · exact Or.inr h2

theorem jobj_hasKey_filterKeys : {p : String → Bool} → {d : JObj} → {k : String} →
    (d.filterKeys p).hasKey k = true → p k = true
  | p, .nil, k, h => by simp [JObj.filterKeys, JObj.hasKey] at h
  | p, .cons k1 v1 tl, k, h => by
    by_cases h1 : p k1
    · simp [JObj.filterKeys, h1, JObj.hasKey] at h
      rcases h with h | h
      · subst h; exact h1
      · exact jobj_hasKey_filterKeys h
    · simp [JObj.filterKeys, h1] at h
      exact jobj_hasKey_filterKeys h

theorem jobj_get_filterKeys_none : {p : String → Bool} → (d : JObj) → {k : String} →
    p k = false → (d.filterKeys p).get k = none
  | p, .nil, k, h => by simp [JObj.filterKeys, JObj.get]
  | p, .cons k1 v1 tl, k, h => by
    by_cases h1 : p k1
    · have hne : k1 ≠ k := by
        intro hh; subst hh; rw [h1] at h; cases h
      simp [JObj.filterKeys, h1, JObj.get, hne, jobj_get_filterKeys_none tl h]
    · simp [JObj.filterKeys, h1, jobj_get_filterKeys_none tl h]

theorem jobj_removeKeys_get (d : JObj) {ks : List String} {k : String}
    (h : ks.contains k = true) : (d.removeKeys ks).get k = none := by
  unfold JObj.removeKeys
  apply jobj_get_filterKeys_none
  simp
  simpa using h

theorem jarr_mapOpt_mem : {f : JVal → Option JVal} → {a b : JArr} →
    JArr.mapOpt f a = some b → {x : JVal} → x ∈ b.toList →
    ∃ y ∈ a.toList, f y = some x
  | f, .nil, b, h, x, hx => by
    simp [JArr.mapOpt] at h
    subst h
    simp [JArr.toList] at hx
  | f, .cons v tl, b, h, x, hx => by
    simp only [JArr.mapOpt] at h
    cases hf : f v with
    | none => rw [hf] at h; cases h
    | some v2 =>
      rw [hf] at h
      cases ht : JArr.mapOpt f tl with
      | none => rw [ht] at h; cases h
      | some tl2 =>
        rw [ht] at h
        cases h
        simp only [JArr.toList, List.mem_cons] at hx
        rcases hx with hx | hx
        · subst hx
          exact ⟨v, by simp [JArr.toList], hf⟩
        · rcases jarr_mapOpt_mem ht hx with ⟨y, hy1, hy2⟩
          exact ⟨y, by simp [JArr.toList, hy1], hy2⟩

theorem jarr_map_mem : {f : JVal → JVal} → {a : JArr} → {x : JVal} →
    x ∈ (JArr.map f a).toList → ∃ y ∈ a.toList, x = f y
  | f, .nil, x, hx => by simp [JArr.map, JArr.toList] at hx
  | f, .cons v tl, x, hx => by
    simp only [JArr.map, JArr.toList, List.mem_cons] at hx
    rcases hx with hx | hx
    · exact ⟨v, by simp [JArr.toList], hx⟩
    · rcases jarr_map_mem hx with ⟨y, hy1, hy2⟩
      exact ⟨y, by simp [JArr.toList, hy1], hy2⟩

theorem collectImages_mem : {a b : JArr} → collectImages a = some b →
    {x : JVal} → x ∈ b.toList →
    ∃ y ∈ a.toList, cleanImageItem y = some (some x)
  | .nil, b, h, x, hx => by
    simp [collectImages] at h
    subst h
    simp [JArr.toList] at hx
  | .cons v tl, b, h, x, hx => by
    simp only [collectImages] at h
    cases hv : cleanImageItem v with
    | none => rw [hv] at h; cases h
    | some o =>
      rw [hv] at h
      cases ht : collectImages tl with
      | none => rw [ht] at h; cases o <;> cases h
      | some rest =>
        rw [ht] at h
        cases o with
        | none =>
          cases h
          rcases collectImages_mem ht hx with ⟨y, hy1, hy2⟩
          exact ⟨y, by simp [JArr.toList, hy1], hy2⟩
        | some i =>
          cases h
          simp only [JArr.toList, List.mem_cons] at hx
          rcases hx with hx | hx
          · subst hx
            exact ⟨v, by simp [JArr.toList], hv⟩
          · rcases collectImages_mem ht hx with ⟨y, hy1, hy2⟩
            exact ⟨y, by simp [JArr.toList, hy1], hy2⟩

/- ===================== C8 ===================== -/

/-- C8: `validate_credentials` never raises — it is a total Boolean
function of the underlying request's outcome — and it returns true exactly
when the authenticated read succeeds, false on any HTTP-status failure
(including a 401) and on any other transport failure. -/
theorem C8_validate_credentials_never_raises (r : ReqOutcome) :
    validate_credentials r = decide (r = ReqOutcome.ok) := by
  cases r with
  | ok => rfl
  | httpStatusError n => simp [validate_credentials]
  | otherError => simp [validate_credentials]

/- ===================== C3 ===================== -/

def c3good : JVal := .obj (.cons "id" (.num 1) .nil)

/-- C3 counterexample: an entry that is not a dict with an identifier key
(here the string "junk") is present in the sequence `get_products` returns,
so such entries are NOT excluded from the returned sequence as the claim
states. -/
theorem C3_counterexample_invalid_entry_returned :
    JVal.str "junk" ∈ (get_products_postprocess [c3good, JVal.str "junk"]).1
    ∧ productHasId (JVal.str "junk") = false := by
  constructor
  · simp [get_products_postprocess]
  · rfl

theorem foldl_warning_count (l : List JVal) (n : Nat) :
    l.foldl (fun n p => if productHasId p then n else n + 1) n
      = n + (l.filter (fun p => !productHasId p)).length := by
  induction l generalizing n with
  | nil => simp
  | cons p tl ih =>
    by_cases h : productHasId p
    · simp [List.foldl, h, ih]
    · simp only [List.foldl, if_neg h]
      rw [ih]
      simp [List.filter, h]
      omega

/-- C3 amended: for every product-listing response, entries that are not
dicts containing an identifier key are each logged with a warning, but they
are NOT excluded: `get_products` returns the parsed products list
unchanged, invalid entries included. -/
theorem C3_amended_returned_unchanged (products : List JVal) :
    (get_products_postprocess products).1 = products
    ∧ (get_products_postprocess products).2
        = (products.filter (fun p => !productHasId p)).length := by
  refine ⟨rfl, ?_⟩
  simp only [get_products_postprocess]
  rw [foldl_warning_count]
  simp

/- ===================== C7 ===================== -/

/-- C7: a source product whose variants list is empty (or defaulted empty)
or whose first variant is a dict with a missing or falsy SKU is skipped:
the skipped counter is incremented by exactly one, no call at all is
issued (in particular no create and no update), and the recording map is
untouched, after which the loop proceeds to the next product. -/
theorem C7_skip_without_writes (env : ProdEnv) (pm : PMap) (d : JObj)
    (h : (d.get "variants").getD (.arr .nil) = .arr .nil
       ∨ ∃ vd tl, (d.get "variants").getD (.arr .nil) = .arr (.cons (.obj vd) tl)
           ∧ optFalsy (vd.get "sku") = true) :
    processProduct env pm d = (skip1, pm, [])
    ∧ processSourceEntry env pm (.obj d) = some (skip1, pm, []) := by
  have hmain : processProduct env pm d = (skip1, pm, []) := by
    rcases h with h | ⟨vd, tl, h, hsku⟩
    · simp only [processProduct]
      rw [h]
    · simp only [processProduct]
      rw [h]
      cases hs : vd.get "sku" with
      | none => simp [hs]
      | some s =>
        rw [hs] at hsku
        simp only [optFalsy] at hsku
        simp [hs, hsku]
  exact ⟨hmain, by simp [processSourceEntry, hmain]⟩

def c7env : ProdEnv := ⟨.ok [], .ok none, .ok .null⟩

theorem C7_witness :
    processProduct c7env [] .nil = (skip1, [], [])
    ∧ processProduct c7env []
        (.cons "variants" (.arr (.cons (.obj .nil) .nil)) .nil)
      = (skip1, [], []) := by
  constructor
  · exact (C7_skip_without_writes c7env [] .nil (Or.inl rfl)).1
  · exact (C7_skip_without_writes c7env []
      (.cons "variants" (.arr (.cons (.obj .nil) .nil)) .nil)
      (Or.inr ⟨JObj.nil, JArr.nil, rfl, rfl⟩)).1

/- ===================== C1 ===================== -/

/-- Python indexing `v[k]` on an arbitrary value, for stating what a built
payload contains. -/
def jvalGet : JVal → String → Option JVal
  | .obj d, k => d.get k
  | _, _ => none

def c1coll : JObj :=
  .cons "title" (.str "Summer") (.cons "body_html" (.str "desc") .nil)

def c1env : CollEnv :=
  ⟨.ok none, .ok (.obj (.cons "id" (.num 7) .nil)), .ok .null⟩

/-- The `collection_data` dict main.py lines 132-136 build for c1coll. -/
def c1data : JObj :=
  .cons "title" (.str "Summer")
    (.cons "body_html" (.str "desc") (.cons "published" (.bool true) .nil))

/-- C1 evaluation at the failing input: for a source collection titled
"Summer" with body "desc" and no matching destination collection, the
orchestrator passes the whole `collection_data` dict as the (str-annotated)
`title` parameter of `create_collection`, so the posted custom_collection
has the entire dict as its title — not the string "Summer" (not any string
at all) — its body_html is the empty-string `description` default instead
of "desc", and no published flag is sent.  This contradicts the claim (and
the client's own signature), which expect title "Summer", body "desc",
published true. -/
theorem C1_created_collection_title_is_not_source_title :
    processCollection c1env (.num 3) c1coll
      = (coll1,
         [Call.getCollectionByTitle (.str "Summer"),
          Call.createCollection (create_collection_payload (.obj c1data) (.str "")),
          Call.addProductToCollection (.num 3) (.num 7)])
    ∧ jvalGet (create_collection_payload (.obj c1data) (.str "")) "custom_collection"
        = some (.obj (.cons "title" (.obj c1data) (.cons "body_html" (.str "") .nil)))
    ∧ (∀ s : String, JVal.obj c1data ≠ JVal.str s)
    ∧ JObj.hasKey (.cons "title" (.obj c1data) (.cons "body_html" (.str "") .nil))
        "published" = false := by
  refine ⟨by decide, by decide, fun s h => JVal.noConfusion h, by decide⟩

/- ===================== C2 ===================== -/

def c2cd : JObj := .cons "title" (.str "Winter") .nil

def c2envA : CollEnv := ⟨.ok none, .error (), .ok .null⟩

/-- C2 counterexample: in a phase-2 iteration where no destination
collection matches and the creation call fails, the failure is only
logged: `error_count` is NOT incremented (it stays 0, where the claim
requires an increment of one), though indeed no association call is
attempted. -/
theorem C2_counterexample_create_failure_not_counted :
    c2envA.createResult = .error ()
    ∧ (processCollection c2envA (.num 3) c2cd).1.error_count = 0
    ∧ (∀ p c, Call.addProductToCollection p c ∉ (processCollection c2envA (.num 3) c2cd).2) := by
  refine ⟨rfl, rfl, ?_⟩
  intro p c
  show Call.addProductToCollection p c ∉
    [Call.getCollectionByTitle (.str "Winter"),
     Call.createCollection (create_collection_payload
       (.obj (phase2_collection_data c2cd (.str "Winter"))) (.str ""))]
  simp

/-- C2 amended: in phase 2, when creating the missing destination
collection fails the failure is logged and the association call is not
attempted, and when the association call fails the failure is logged and
iteration continues — but in neither case is the error count incremented;
the error count is incremented by one only when the iteration raises
outside those two inner handlers, e.g. when the destination-collection
lookup itself fails. -/
theorem C2_amended_phase2_error_accounting (pid : JVal) (cd : JObj) (t : JVal)
    (ht : cd.get "title" = some t) :
    (∀ env : CollEnv, env.lookupResult = .ok none → env.createResult = .error () →
        processCollection env pid cd
          = (zeroCounts,
             [Call.getCollectionByTitle t,
              Call.createCollection (create_collection_payload
                (.obj (phase2_collection_data cd t)) (.str ""))]))
    ∧ (∀ (env : CollEnv) (dcd : JObj) (cid : JVal),
        env.lookupResult = .ok (some (.obj dcd)) → dcd.get "id" = some cid →
        env.addResult = .error () →
        processCollection env pid cd
          = (zeroCounts, [Call.getCollectionByTitle t,
              Call.addProductToCollection pid cid]))
    ∧ (∀ env : CollEnv, env.lookupResult = .error () →
        processCollection env pid cd = (err1, [Call.getCollectionByTitle t])) := by
  refine ⟨?_, ?_, ?_⟩
  · intro env hl hc
    simp [processCollection, ht, hl, hc]
  · intro env dcd cid hl hid hadd
    have hne : (JVal.obj dcd).falsy = false := by
      simp [JVal.falsy, jobj_isEmpty_false_of_get hid]
    simp [processCollection, assocStep, ht, hl, hid, hadd, hne]
  · intro env hl
    simp [processCollection, ht, hl]

def c2envB : CollEnv := ⟨.ok (some (.obj (.cons "id" (.num 9) .nil))), .ok .null, .error ()⟩

def c2envC : CollEnv := ⟨.error (), .ok .null, .ok .null⟩

theorem C2_witness :
    processCollection c2envA (.num 3) c2cd
      = (zeroCounts,
         [Call.getCollectionByTitle (.str "Winter"),
          Call.createCollection (create_collection_payload
            (.obj (phase2_collection_data c2cd (.str "Winter"))) (.str ""))])
    ∧ processCollection c2envB (.num 3) c2cd
      = (zeroCounts, [Call.getCollectionByTitle (.str "Winter"),
          Call.addProductToCollection (.num 3) (.num 9)])
    ∧ processCollection c2envC (.num 3) c2cd
      = (err1, [Call.getCollectionByTitle (.str "Winter")]) := by
  have h := C2_amended_phase2_error_accounting (.num 3) c2cd (.str "Winter") rfl
  exact ⟨h.1 c2envA rfl rfl,
         h.2.1 c2envB (.cons "id" (.num 9) .nil) (.num 9) rfl rfl rfl,
         h.2.2 c2envC rfl⟩

/- ===================== C5 ===================== -/

theorem prepare_cleaned_keys {pd : JObj} {k : String}
    (h : (prepare_cleaned pd).hasKey k = true) : k ∈ allowed_fields := by
  have h2 := jobj_hasKey_filterKeys h
  simpa using h2

theorem after_variants_cases (c r : JObj) (h : prepare_after_variants c = some r) :
    (c.get "variants" = none ∧ r = c)
    ∨ ∃ v v2, c.get "variants" = some v ∧ cleanVariantsVal v = some v2
        ∧ r = c.set "variants" v2 := by
  unfold prepare_after_variants at h
  split at h
  next hv =>
    simp at h
    exact Or.inl ⟨hv, h.symm⟩
  next v hv =>
    split at h
    next hc => cases h
    next v2 hc =>
      simp at h
      exact Or.inr ⟨v, v2, hv, hc, h.symm⟩

theorem after_images_cases (c r : JObj) (h : prepare_after_images c = some r) :
    (c.get "images" = none ∧ r = c)
    ∨ ∃ v v2, c.get "images" = some v ∧ cleanImagesVal v = some v2
        ∧ r = c.set "images" v2 := by
  unfold prepare_after_images at h
  split at h
  next hv =>
    simp at h
    exact Or.inl ⟨hv, h.symm⟩
  next v hv =>
    split at h
    next hc => cases h
    next v2 hc =>
      simp at h
      exact Or.inr ⟨v, v2, hv, hc, h.symm⟩

theorem variants_clean {v v2 : JVal} (hcv : cleanVariantsVal v = some v2)
    {vs : JArr} (hv2 : v2 = .arr vs) {vd : JObj}
    (hm : JVal.obj vd ∈ vs.toList) {k : String} (hk : k ∈ keys_to_remove) :
    vd.get k = none := by
  cases v with
  | arr vs0 =>
    simp only [cleanVariantsVal] at hcv
    cases hmo : JArr.mapOpt popVariantKeys vs0 with
    | none => rw [hmo] at hcv; cases hcv
    | some b =>
      rw [hmo] at hcv
      simp at hcv
      subst hcv
      cases hv2
      rcases jarr_mapOpt_mem hmo hm with ⟨y, hy1, hy2⟩
      cases y with
      | obj yd =>
        simp only [popVariantKeys, Option.some.injEq] at hy2
        cases hy2
        exact jobj_removeKeys_get yd (by simpa using hk)
      | str s => simp [popVariantKeys] at hy2
      | num n => simp [popVariantKeys] at hy2
      | bool b2 => simp [popVariantKeys] at hy2
      | null => simp [popVariantKeys] at hy2
      | arr a2 => simp [popVariantKeys] at hy2
  | obj o =>
    simp only [cleanVariantsVal] at hcv
    by_cases ho : o.isEmpty
    · rw [if_pos ho] at hcv
      simp at hcv
      subst hcv
      exact JVal.noConfusion hv2
    · rw [if_neg ho] at hcv
      cases hcv
  | str s =>
    simp only [cleanVariantsVal] at hcv
    by_cases hs : s == ""
    · rw [if_pos hs] at hcv
      simp at hcv
      subst hcv
      exact JVal.noConfusion hv2
    · rw [if_neg hs] at hcv
      cases hcv
  | num n => cases hcv
  | bool b2 => cases hcv
  | null => cases hcv

theorem images_clean {v v2 : JVal} (hci : cleanImagesVal v = some v2)
    {imgs : JArr} (hv2 : v2 = .arr imgs) {img : JVal} (hm : img ∈ imgs.toList) :
    ∃ s a, img = .obj (.cons "src" s (.cons "alt" a .nil)) := by
  cases v with
  | arr imgs0 =>
    simp only [cleanImagesVal] at hci
    cases hco : collectImages imgs0 with
    | none => rw [hco] at hci; cases hci
    | some b =>
      rw [hco] at hci
      simp at hci
      subst hci
      cases hv2
      rcases collectImages_mem hco hm with ⟨y, hy1, hy2⟩
      cases y with
      | obj d =>
        simp only [cleanImageItem] at hy2
        cases hs : d.get "src" with
        | none => rw [hs] at hy2; simp at hy2
        | some srcv =>
          rw [hs] at hy2
          simp at hy2
          exact ⟨srcv, (d.get "alt").getD (.str ""), hy2.symm⟩
      | str s =>
        by_cases hcs : strContainsSrc s <;> simp [cleanImageItem, hcs] at hy2
      | arr l =>
        by_cases hcs : l.containsVal (.str "src") <;> simp [cleanImageItem, hcs] at hy2
      | num n => simp [cleanImageItem] at hy2
      | bool b2 => simp [cleanImageItem] at hy2
      | null => simp [cleanImageItem] at hy2
  | obj o =>
    simp only [cleanImagesVal] at hci
    by_cases ho : o.keys.any strContainsSrc
    · rw [if_pos ho] at hci; cases hci
    · rw [if_neg ho] at hci
      simp at hci
      subst hci
      cases hv2
      simp [JArr.toList] at hm
  | str s =>
    simp only [cleanImagesVal] at hci
    simp at hci
    subst hci
    cases hv2
    simp [JArr.toList] at hm
  | num n => cases hci
  | bool b2 => cases hci
  | null => cases hci

/-- C5: for every input product dict on which the payload-shaping transform
completes, the produced payload contains only the allow-listed top-level
keys; every variant dict in the payload's variants array has had every
server-managed key (variant id, product reference, image reference,
inventory item reference, old inventory snapshot, shipping-requirement
flag, GraphQL id) removed; and every image in the payload's images array
consists of exactly a source URL and an alt text. -/
theorem C5_payload_allowlist (pd out : JObj)
    (h : prepare_product_data pd = some out) :
    (∀ k : String, out.hasKey k = true → k ∈ allowed_fields)
    ∧ (∀ (vs : JArr) (vd : JObj) (k : String),
        out.get "variants" = some (.arr vs) → JVal.obj vd ∈ vs.toList →
        k ∈ keys_to_remove → vd.get k = none)
    ∧ (∀ (imgs : JArr) (img : JVal),
        out.get "images" = some (.arr imgs) → img ∈ imgs.toList →
        ∃ s a, img = .obj (.cons "src" s (.cons "alt" a .nil))) := by
  simp only [prepare_product_data] at h
  cases hav : prepare_after_variants (prepare_cleaned pd) with
  | none => rw [hav] at h; cases h
  | some c2 =>
    rw [hav] at h
    rcases after_variants_cases _ _ hav with ⟨hv, rfl⟩ | ⟨v, v2, hv, hcv, rfl⟩
    · rcases after_images_cases _ _ h with ⟨hi, rfl⟩ | ⟨iv, iv2, hi, hci, rfl⟩
      · refine ⟨fun k hk => prepare_cleaned_keys hk, ?_, ?_⟩
        · intro vs vd k hvv hm hk
          rw [hv] at hvv
          cases hvv
        · intro imgs img hii hm
          rw [hi] at hii
          cases hii
      · refine ⟨?_, ?_, ?_⟩
        · intro k hk
          rcases jobj_hasKey_set hk with hk2 | rfl
          · exact prepare_cleaned_keys hk2
          · decide
        · intro vs vd k hvv hm hk
          rw [jobj_get_set_other _ _ _ _ (by decide), hv] at hvv
          cases hvv
        · intro imgs img hii hm
          rw [jobj_get_set_same] at hii
          simp at hii
          exact images_clean hci hii hm
    · rcases after_images_cases _ _ h with ⟨hi, rfl⟩ | ⟨iv, iv2, hi, hci, rfl⟩
      · refine ⟨?_, ?_, ?_⟩
        · intro k hk
          rcases jobj_hasKey_set hk with hk2 | rfl
          · exact prepare_cleaned_keys hk2
          · decide
        · intro vs vd k hvv hm hk
          rw [jobj_get_set_same] at hvv
          simp at hvv
          exact variants_clean hcv hvv hm hk
        · intro imgs img hii hm
          rw [hi] at hii
          cases hii
      · refine ⟨?_, ?_, ?_⟩
        · intro k hk
          rcases jobj_hasKey_set hk with hk2 | rfl
          · rcases jobj_hasKey_set hk2 with hk3 | rfl
            · exact prepare_cleaned_keys hk3
            · decide
          · decide
        · intro vs vd k hvv hm hk
          rw [jobj_get_set_other _ _ _ _ (by decide), jobj_get_set_same] at hvv
          simp at hvv
          exact variants_clean hcv hvv hm hk
        · intro imgs img hii hm
          rw [jobj_get_set_same] at hii
          simp at hii
          exact images_clean hci hii hm

def c5pd : JObj :=
  .cons "title" (.str "T")
    (.cons "id" (.num 9)
      (.cons "variants"
        (.arr (.cons (.obj (.cons "id" (.num 1) (.cons "sku" (.str "S") .nil))) .nil))
        (.cons "images"
          (.arr (.cons (.obj (.cons "id" (.num 2) (.cons "src" (.str "u") .nil))) .nil))
          .nil)))

def c5out : JObj :=
  .cons "title" (.str "T")
    (.cons "variants"
      (.arr (.cons (.obj (.cons "sku" (.str "S") .nil)) .nil))
      (.cons "images"
        (.arr (.cons (.obj (.cons "src" (.str "u") (.cons "alt" (.str "") .nil))) .nil))
        .nil))

theorem C5_witness :
    prepare_product_data c5pd = some c5out
    ∧ JObj.get (.cons "sku" (.str "S") .nil) "id" = none
    ∧ "title" ∈ allowed_fields := by
  have h := C5_payload_allowlist c5pd c5out (by decide)
  refine ⟨by decide, ?_, ?_⟩
  · exact h.2.1 (.cons (.obj (.cons "sku" (.str "S") .nil)) .nil)
      (.cons "sku" (.str "S") .nil) "id" (by decide) (by decide) (by decide)
  · exact h.1 "title" (by decide)

/- ===================== C9 ===================== -/

def c9pd : JObj :=
  .cons "title" (.str "T")
    (.cons "variants"
      (.arr (.cons (.obj (.cons "id" (.num 1) (.cons "sku" (.str "S") .nil))) .nil)) .nil)

def c9post : JObj :=
  .cons "title" (.str "T")
    (.cons "variants"
      (.arr (.cons (.obj (.cons "sku" (.str "S") .nil)) .nil)) .nil)

/-- C9: the payload transform is not side-effect-free on its input.  When a
create/update call runs the transform to completion, the caller-supplied
product dict is mutated: every variant dict loses the server-managed keys
(GraphQL id, variant id, product reference, image reference, inventory item
reference, old inventory snapshot, shipping-requirement flag) in place —
only the "variants" binding changes — and on a concrete input carrying such
a key the caller's dict after the call differs from the one passed in. -/
theorem C9_transform_mutates_caller :
    (∀ (pd post : JObj), prepare_caller_state pd = some post →
      (∀ (vs : JArr) (vd : JObj) (k : String),
        post.get "variants" = some (.arr vs) → JVal.obj vd ∈ vs.toList →
        k ∈ keys_to_remove → vd.get k = none)
      ∧ (∀ k, k ≠ "variants" → post.get k = pd.get k))
    ∧ prepare_caller_state c9pd = some c9post
    ∧ c9post ≠ c9pd := by
  refine ⟨?_, by decide, by decide⟩
  intro pd post h
  simp only [prepare_caller_state] at h
  cases hp : prepare_product_data pd with
  | none => rw [hp] at h; cases h
  | some o =>
    rw [hp] at h
    simp at h
    cases hv : pd.get "variants" with
    | none =>
      rw [hv] at h
      subst h
      constructor
      · intro vs vd k hvv hm hk
        rw [hv] at hvv
        cases hvv
      · intro k hk
        rfl
    | some v =>
      rw [hv] at h
      subst h
      constructor
      · intro vs vd k hvv hm hk
        rw [jobj_get_set_same] at hvv
        simp at hvv
        cases v with
        | arr vs0 =>
          simp only [stripServerKeysVal] at hvv
          cases hvv
          rcases jarr_map_mem hm with ⟨y, hy1, hy2⟩
          cases y with
          | obj yd =>
            simp at hy2
            subst hy2
            exact jobj_removeKeys_get yd (by simpa using hk)
          | str s => simp at hy2
          | num n => simp at hy2
          | bool b2 => simp at hy2
          | null => simp at hy2
          | arr a2 => simp at hy2
        | str s => simp [stripServerKeysVal] at hvv
        | num n => simp [stripServerKeysVal] at hvv
        | bool b2 => simp [stripServerKeysVal] at hvv
        | null => simp [stripServerKeysVal] at hvv
        | obj o2 => simp [stripServerKeysVal] at hvv
      · intro k hk
        exact jobj_get_set_other _ _ _ _ hk

theorem C9_witness :
    c9post.get "title" = c9pd.get "title" :=
  (C9_transform_mutates_caller.1 c9pd c9post (by decide)).2 "title" (by decide)

/- ===================== C6 ===================== -/

theorem afterWrite_write_counters (base : Counts) (m : JVal) (s : List JVal)
    (q : PMap) :
    (afterWrite base (some m) s q).1.created_count = base.created_count
    ∧ (afterWrite base (some m) s q).1.updated_count = base.updated_count := by
  simp only [afterWrite]
  by_cases hf : m.falsy = true
  · simp [hf]
  · simp only [hf, Bool.false_eq_true, if_false]
    by_cases hs : s.isEmpty = true
    · simp [hs]
    · simp only [hs, Bool.false_eq_true, if_false]
      cases m with
      | obj md =>
        cases hid : md.get "id" with
        | some mid => simp [hid]
        | none => simp [hid, addCounts, err1]
      | str s2 => simp [addCounts, err1]
      | num n => simp [addCounts, err1]
      | bool b2 => simp [addCounts, err1]
      | null => simp [addCounts, err1]
      | arr a2 => simp [addCounts, err1]

/-- C6: for a source product whose first variant carries a truthy SKU that
matches an existing destination product (the destination lookup returns a
dict with an id), the orchestrator issues `updateProduct` addressed at the
matched destination id — so the destination identifier is preserved — and
never issues `createProduct` for that product; when the update call
succeeds the updated counter is incremented by exactly one and the created
counter stays zero. -/
theorem C6_update_not_create_on_sku_match (env : ProdEnv) (pm : PMap)
    (d vd exd : JObj) (tl : JArr) (skuv exid : JVal)
    (hv : d.get "variants" = some (.arr (.cons (.obj vd) tl)))
    (hs : vd.get "sku" = some skuv) (hst : skuv.falsy = false)
    (hl : env.lookupResult = .ok (some (.obj exd)))
    (hid : exd.get "id" = some exid) :
    Call.updateProduct exid ∈ (processProduct env pm d).2.2
    ∧ Call.createProduct ∉ (processProduct env pm d).2.2
    ∧ (∀ m, env.writeResult = .ok m →
        (processProduct env pm d).1.updated_count = 1
        ∧ (processProduct env pm d).1.created_count = 0) := by
  have hfalse : (JVal.obj exd).falsy = false := by
    simp [JVal.falsy, jobj_isEmpty_false_of_get hid]
  have hred : processProduct env pm d = processWithSku env pm d skuv := by
    simp [processProduct, hv, hs, hst]
  rw [hred]
  cases hgid : d.get "id" with
  | none =>
    cases hw : env.writeResult with
    | error e2 =>
      refine ⟨?_, ?_, ?_⟩
      · simp [processWithSku, hl, hfalse, hid, hgid, hw]
      · simp [processWithSku, hl, hfalse, hid, hgid, hw]
      · intro m hm
        cases hm
    | ok m =>
      refine ⟨?_, ?_, ?_⟩
      · simp [processWithSku, hl, hfalse, hid, hgid, hw]
      · simp [processWithSku, hl, hfalse, hid, hgid, hw]
      · intro m2 hm
        have hcu := afterWrite_write_counters upd1 m ([] : List JVal) pm
        constructor
        · simp [processWithSku, hl, hfalse, hid, hgid, hw]
          rw [hcu.2]
          rfl
        · simp [processWithSku, hl, hfalse, hid, hgid, hw]
          rw [hcu.1]
          rfl
  | some pid =>
    cases hcr : env.collectionsResult with
    | error e =>
      cases hw : env.writeResult with
      | error e2 =>
        refine ⟨?_, ?_, ?_⟩
        · simp [processWithSku, hl, hfalse, hid, hgid, hcr, hw]
        · simp [processWithSku, hl, hfalse, hid, hgid, hcr, hw]
        · intro m hm
          cases hm
      | ok m =>
        refine ⟨?_, ?_, ?_⟩
        · simp [processWithSku, hl, hfalse, hid, hgid, hcr, hw]
        · simp [processWithSku, hl, hfalse, hid, hgid, hcr, hw]
        · intro m2 hm
          have hcu := afterWrite_write_counters upd1 m ([] : List JVal) pm
          constructor
          · simp [processWithSku, hl, hfalse, hid, hgid, hcr, hw]
            rw [hcu.2]
            rfl
          · simp [processWithSku, hl, hfalse, hid, hgid, hcr, hw]
            rw [hcu.1]
            rfl
    | ok cs =>
      cases hw : env.writeResult with
      | error e2 =>
        refine ⟨?_, ?_, ?_⟩
        · simp [processWithSku, hl, hfalse, hid, hgid, hcr, hw]
        · simp [processWithSku, hl, hfalse, hid, hgid, hcr, hw]
        · intro m hm
          cases hm
      | ok m =>
        refine ⟨?_, ?_, ?_⟩
        · simp [processWithSku, hl, hfalse, hid, hgid, hcr, hw]
        · simp [processWithSku, hl, hfalse, hid, hgid, hcr, hw]
        · intro m2 hm
          have hcu := afterWrite_write_counters upd1 m cs pm
          constructor
          · simp [processWithSku, hl, hfalse, hid, hgid, hcr, hw]
            rw [hcu.2]
            rfl
          · simp [processWithSku, hl, hfalse, hid, hgid, hcr, hw]
            rw [hcu.1]
            rfl

def c6prod : JObj :=
  .cons "id" (.num 7)
    (.cons "title" (.str "Shirt")
      (.cons "variants"
        (.arr (.cons (.obj (.cons "sku" (.str "SKU-1") .nil)) .nil)) .nil))

def c6env : ProdEnv :=
  ⟨.ok [], .ok (some (.obj (.cons "id" (.num 42) .nil))),
   .ok (.obj (.cons "id" (.num 42) .nil))⟩

theorem C6_witness :
    Call.updateProduct (.num 42) ∈ (processProduct c6env [] c6prod).2.2
    ∧ (processProduct c6env [] c6prod).1.updated_count = 1 := by
  have h := C6_update_not_create_on_sku_match c6env [] c6prod
    (.cons "sku" (.str "SKU-1") .nil) (.cons "id" (.num 42) .nil) .nil
    (.str "SKU-1") (.num 42) (by decide) (by decide) (by decide) rfl (by decide)
  exact ⟨h.1, (h.2.2 (.obj (.cons "id" (.num 42) .nil)) rfl).1⟩

/- ===================== C10 ===================== -/

/-- C10: the phase-1 recording map is keyed by destination product id.
When two source products' writes resolve to the same destination product id
`k` (here: both SKUs match existing destination products whose update
responses carry the same id) and both have non-empty source collection
sets, the dict assignment of main.py line 107 silently overwrites the first
recording: after phase 1 the map binds `k` to the later product's
collection list only. -/
theorem C10_recording_map_overwrite (e1 e2 : ProdEnv)
    (d1 d2 vd1 vd2 exd1 exd2 md1 md2 : JObj) (tl1 tl2 : JArr)
    (s1 s2 pid1 pid2 exid1 exid2 k : JVal) (c1 c2 : List JVal)
    (hv1 : d1.get "variants" = some (.arr (.cons (.obj vd1) tl1)))
    (hs1 : vd1.get "sku" = some s1) (hf1 : s1.falsy = false)
    (hpid1 : d1.get "id" = some pid1)
    (hc1 : e1.collectionsResult = .ok c1) (hne1 : c1 ≠ [])
    (hl1 : e1.lookupResult = .ok (some (.obj exd1)))
    (hx1 : exd1.get "id" = some exid1)
    (hw1 : e1.writeResult = .ok (.obj md1)) (hm1 : md1.get "id" = some k)
    (hv2 : d2.get "variants" = some (.arr (.cons (.obj vd2) tl2)))
    (hs2 : vd2.get "sku" = some s2) (hf2 : s2.falsy = false)
    (hpid2 : d2.get "id" = some pid2)
    (hc2 : e2.collectionsResult = .ok c2) (hne2 : c2 ≠ [])
    (hl2 : e2.lookupResult = .ok (some (.obj exd2)))
    (hx2 : exd2.get "id" = some exid2)
    (hw2 : e2.writeResult = .ok (.obj md2)) (hm2 : md2.get "id" = some k) :
    Option.map (fun r => r.2.1)
        (runPhase1 [((.obj d1), e1), ((.obj d2), e2)])
      = some [(k, c2)] := by
  have hne1b : c1.isEmpty = false := by
    cases c1 with
    | nil => exact absurd rfl hne1
    | cons a b => rfl
  have hne2b : c2.isEmpty = false := by
    cases c2 with
    | nil => exact absurd rfl hne2
    | cons a b => rfl
  have hmf1 : (JVal.obj md1).falsy = false := by
    simp [JVal.falsy, jobj_isEmpty_false_of_get hm1]
  have hmf2 : (JVal.obj md2).falsy = false := by
    simp [JVal.falsy, jobj_isEmpty_false_of_get hm2]
  have hxf1 : (JVal.obj exd1).falsy = false := by
    simp [JVal.falsy, jobj_isEmpty_false_of_get hx1]
  have hxf2 : (JVal.obj exd2).falsy = false := by
    simp [JVal.falsy, jobj_isEmpty_false_of_get hx2]
  have h1 : processProduct e1 [] d1
      = (upd1, [(k, c1)],
         [Call.getProductCollections pid1, Call.getProductBySku s1,
          Call.updateProduct exid1]) := by
    simp [processProduct, hv1, hs1, hf1, processWithSku, hpid1, hc1, hl1,
          hxf1, hx1, hw1, afterWrite, hmf1, hne1b, hm1, pmapSet]
  have h2 : processProduct e2 [(k, c1)] d2
      = (upd1, [(k, c2)],
         [Call.getProductCollections pid2, Call.getProductBySku s2,
          Call.updateProduct exid2]) := by
    simp [processProduct, hv2, hs2, hf2, processWithSku, hpid2, hc2, hl2,
          hxf2, hx2, hw2, afterWrite, hmf2, hne2b, hm2, pmapSet]
  simp [runPhase1, runPhase1Aux, processSourceEntry, h1, h2]

def c10d1 : JObj :=
  .cons "id" (.num 1)
    (.cons "variants" (.arr (.cons (.obj (.cons "sku" (.str "A") .nil)) .nil)) .nil)

def c10d2 : JObj :=
  .cons "id" (.num 2)
    (.cons "variants" (.arr (.cons (.obj (.cons "sku" (.str "B") .nil)) .nil)) .nil)

def c10e1 : ProdEnv :=
  ⟨.ok [.obj (.cons "title" (.str "Summer") .nil)],
   .ok (some (.obj (.cons "id" (.num 42) .nil))),
   .ok (.obj (.cons "id" (.num 42) .nil))⟩

def c10e2 : ProdEnv :=
  ⟨.ok [.obj (.cons "title" (.str "Winter") .nil)],
   .ok (some (.obj (.cons "id" (.num 42) .nil))),
   .ok (.obj (.cons "id" (.num 42) .nil))⟩

theorem C10_witness :
    Option.map (fun r => r.2.1)
        (runPhase1 [((.obj c10d1), c10e1), ((.obj c10d2), c10e2)])
      = some [(JVal.num 42, [JVal.obj (.cons "title" (.str "Winter") .nil)])] :=
  C10_recording_map_overwrite c10e1 c10e2 c10d1 c10d2
    (.cons "sku" (.str "A") .nil) (.cons "sku" (.str "B") .nil)
    (.cons "id" (.num 42) .nil) (.cons "id" (.num 42) .nil)
    (.cons "id" (.num 42) .nil) (.cons "id" (.num 42) .nil)
    .nil .nil
    (.str "A") (.str "B") (.num 1) (.num 2) (.num 42) (.num 42) (.num 42)
    [.obj (.cons "title" (.str "Summer") .nil)]
    [.obj (.cons "title" (.str "Winter") .nil)]
    (by decide) (by decide) (by decide) (by decide) rfl (by decide)
    rfl (by decide) rfl (by decide)
    (by decide) (by decide) (by decide) (by decide) rfl (by decide)
    rfl (by decide) rfl (by decide)

/- ===================== C4 ===================== -/

/-- Well-formedness of the destination write responses an environment
supplies: a successful create/update returns either a falsy value or a dict
carrying an "id".  `create_product` guarantees this itself (it indexes
`created_product["id"]` inside its own try and re-raises, shopify_client.py
line 158); for updates it is an assumption about the remote store. -/
def WFwrite (env : ProdEnv) : Prop :=
  ∀ m, env.writeResult = .ok m →
    m.falsy = true ∨ ∃ md, m = .obj md ∧ (md.get "id").isSome = true

theorem afterWrite_ok (base : Counts) (m : JVal) (s : List JVal) (q : PMap)
    (h : m.falsy = true ∨ ∃ md, m = .obj md ∧ (md.get "id").isSome = true) :
    (afterWrite base (some m) s q).1 = base := by
  simp only [afterWrite]
  rcases h with h | ⟨md, rfl, hid⟩
  · simp [h]
  · by_cases hf : (JVal.obj md).falsy = true
    · simp [hf]
    · simp only [hf, Bool.false_eq_true, if_false]
      by_cases hs2 : s.isEmpty = true
      · simp [hs2]
      · simp only [hs2, Bool.false_eq_true, if_false]
        cases hg : md.get "id" with
        | none => rw [hg] at hid; simp at hid
        | some mid => simp [hg]

theorem processWithSku_sum4 (env : ProdEnv) (pm : PMap) (d : JObj) (skuv : JVal)
    (hws : ∀ (base : Counts) (m : JVal) (s : List JVal) (q : PMap),
      env.writeResult = .ok m → (afterWrite base (some m) s q).1 = base) :
    countsSum4 (processWithSku env pm d skuv).1 = 1 := by
  simp only [processWithSku]
  cases hl : env.lookupResult with
  | error e => simp [hl, countsSum4, err1]
  | ok found =>
    simp only [hl]
    cases found with
    | none =>
      cases hw : env.writeResult with
      | error e => simp [hw, countsSum4, err1]
      | ok m =>
        simp only [hw]
        rw [hws cre1 m _ _ hw]
        simp [countsSum4, cre1]
    | some f =>
      by_cases hf : f.falsy = true
      · simp only [hf, if_true]
        cases hw : env.writeResult with
        | error e => simp [hw, countsSum4, err1]
        | ok m =>
          simp only [hw]
          rw [hws cre1 m _ _ hw]
          simp [countsSum4, cre1]
      · simp only [hf, Bool.false_eq_true, if_false]
        cases f with
        | obj exd =>
          cases hx : exd.get "id" with
          | none => simp [hx, countsSum4, err1]
          | some exid =>
            simp only [hx]
            cases hw : env.writeResult with
            | error e => simp [hw, countsSum4, err1]
            | ok m =>
              simp only [hw]
              rw [hws upd1 m _ _ hw]
              simp [countsSum4, upd1]
        | str s2 => simp [countsSum4, err1]
        | num n => simp [countsSum4, err1]
        | bool b2 => simp [countsSum4, err1]
        | null => simp [countsSum4, err1]
        | arr a2 => simp [countsSum4, err1]

theorem processProduct_sum4 (env : ProdEnv) (pm : PMap) (d : JObj)
    (hwf : WFwrite env) :
    countsSum4 (processProduct env pm d).1 = 1 := by
  have hws : ∀ (base : Counts) (m : JVal) (s : List JVal) (q : PMap),
      env.writeResult = .ok m → (afterWrite base (some m) s q).1 = base :=
    fun base m s q hw => afterWrite_ok base m s q (hwf m hw)
  simp only [processProduct]
  cases hvv : (d.get "variants").getD (.arr .nil) with
  | arr a =>
    cases a with
    | nil => simp [hvv, countsSum4, skip1]
    | cons v tl =>
      simp only [hvv]
      cases v with
      | obj vd =>
        cases hsk : vd.get "sku" with
        | none => simp [hsk, countsSum4, skip1]
        | some skuv =>
          simp only [hsk]
          by_cases hsf : skuv.falsy = true
          · simp [hsf, countsSum4, skip1]
          · simp only [hsf, Bool.false_eq_true, if_false]
            exact processWithSku_sum4 env pm d skuv hws
      | str s2 => simp [countsSum4, err1]
      | num n => simp [countsSum4, err1]
      | bool b2 => simp [countsSum4, err1]
      | null => simp [countsSum4, err1]
      | arr a2 => simp [countsSum4, err1]
  | str s2 =>
    by_cases hsf : (JVal.str s2).falsy = true
    · simp [hvv, hsf, countsSum4, skip1]
    · simp [hvv, hsf, countsSum4, err1]
  | num n =>
    by_cases hsf : (JVal.num n).falsy = true
    · simp [hvv, hsf, countsSum4, skip1]
    · simp [hvv, hsf, countsSum4, err1]
  | bool b2 =>
    by_cases hsf : (JVal.bool b2).falsy = true
    · simp [hvv, hsf, countsSum4, skip1]
    · simp [hvv, hsf, countsSum4, err1]
  | null => simp [hvv, countsSum4, skip1, JVal.falsy]
  | obj o =>
    by_cases hsf : (JVal.obj o).falsy = true
    · simp [hvv, hsf, countsSum4, skip1]
    · simp [hvv, hsf, countsSum4, err1]

theorem countsSum4_addCounts (a b : Counts) :
    countsSum4 (addCounts a b) = countsSum4 a + countsSum4 b := by
  simp [countsSum4, addCounts]
  omega

theorem processSourceEntry_some {env : ProdEnv} {pm : PMap} {p : JVal}
    {r : Counts × PMap × List Call}
    (h : processSourceEntry env pm p = some r) :
    ∃ d, p = .obj d ∧ r = processProduct env pm d := by
  cases p with
  | obj d =>
    simp only [processSourceEntry, Option.some.injEq] at h
    exact ⟨d, rfl, h.symm⟩
  | str s => simp [processSourceEntry] at h
  | num n => simp [processSourceEntry] at h
  | bool b2 => simp [processSourceEntry] at h
  | null => simp [processSourceEntry] at h
  | arr a2 => simp [processSourceEntry] at h

theorem runPhase1Aux_sum4 (l : List (JVal × ProdEnv)) :
    ∀ (acc r : Counts × PMap × List Call),
    (∀ pe ∈ l, WFwrite pe.2) → runPhase1Aux acc l = some r →
    countsSum4 r.1 = countsSum4 acc.1 + l.length := by
  induction l with
  | nil =>
    intro acc r h hr
    simp only [runPhase1Aux] at hr
    cases hr
    simp
  | cons pe rest ih =>
    intro acc r h hr
    obtain ⟨p, env⟩ := pe
    simp only [runPhase1Aux] at hr
    cases hp : processSourceEntry env acc.2.1 p with
    | none => rw [hp] at hr; cases hr
    | some rstep =>
      rw [hp] at hr
      obtain ⟨d, rfl, rfl⟩ := processSourceEntry_some hp
      have hrec := ih _ r (fun x hx => h x (List.mem_cons_of_mem _ hx)) hr
      rw [hrec, countsSum4_addCounts,
          processProduct_sum4 env acc.2.1 d (h ((.obj d), env) (List.mem_cons_self _ _))]
      simp [List.length_cons]
      omega

theorem runPhase1_sum4 (l : List (JVal × ProdEnv)) (r : Counts × PMap × List Call)
    (h : ∀ pe ∈ l, WFwrite pe.2) (hr : runPhase1 l = some r) :
    countsSum4 r.1 = l.length := by
  unfold runPhase1 at hr
  have h2 := runPhase1Aux_sum4 l (zeroCounts, [], []) r h hr
  simpa [zeroCounts, countsSum4] using h2

theorem assocStep_fields (pid dc : JVal) (env : CollEnv) (calls : List Call) :
    (assocStep pid dc env calls).1.created_count = 0
    ∧ (assocStep pid dc env calls).1.updated_count = 0
    ∧ (assocStep pid dc env calls).1.skipped_count = 0
    ∧ (assocStep pid dc env calls).1.error_count = 0 := by
  simp only [assocStep]
  cases dc with
  | obj dcd =>
    cases hg : dcd.get "id" with
    | none => simp [hg, zeroCounts]
    | some cid =>
      simp only [hg]
      cases ha : env.addResult with
      | ok r => simp [ha, coll1]
      | error e => simp [ha, zeroCounts]
  | str s2 => simp [zeroCounts]
  | num n => simp [zeroCounts]
  | bool b2 => simp [zeroCounts]
  | null => simp [zeroCounts]
  | arr a2 => simp [zeroCounts]

theorem processCollection_fields (env : CollEnv) (pid : JVal) (cd : JObj) :
    (processCollection env pid cd).1.created_count = 0
    ∧ (processCollection env pid cd).1.updated_count = 0
    ∧ (processCollection env pid cd).1.skipped_count = 0
    ∧ (processCollection env pid cd).1.error_count
        = cond (collIterRaises env (.obj cd)) 1 0 := by
  simp only [processCollection, collIterRaises]
  cases ht : cd.get "title" with
  | none => simp [ht, err1]
  | some t =>
    simp only [ht]
    cases hl : env.lookupResult with
    | error e => simp [hl, err1]
    | ok found =>
      simp only [hl]
      cases found with
      | none =>
        cases hc : env.createResult with
        | error e => simp [hc, zeroCounts]
        | ok dc =>
          simp only [hc]
          have h := assocStep_fields pid dc env
            [Call.getCollectionByTitle t,
             Call.createCollection (create_collection_payload
               (.obj (phase2_collection_data cd t)) (.str ""))]
          simp [h.1, h.2.1, h.2.2.1, h.2.2.2]
      | some f =>
        by_cases hf : f.falsy = true
        · simp only [hf, if_true]
          cases hc : env.createResult with
          | error e => simp [hc, zeroCounts]
          | ok dc =>
            simp only [hc]
            have h := assocStep_fields pid dc env
              [Call.getCollectionByTitle t,
               Call.createCollection (create_collection_payload
                 (.obj (phase2_collection_data cd t)) (.str ""))]
            simp [h.1, h.2.1, h.2.2.1, h.2.2.2]
        · simp only [hf, Bool.false_eq_true, if_false]
          have h := assocStep_fields pid f env [Call.getCollectionByTitle t]
          simp [h.1, h.2.1, h.2.2.1, h.2.2.2]

theorem processCollectionEntry_some {env : CollEnv} {pid c : JVal}
    {r : Counts × List Call}
    (h : processCollectionEntry env pid c = some r) :
    ∃ cd, c = .obj cd ∧ r = processCollection env pid cd := by
  cases c with
  | obj cd =>
    simp only [processCollectionEntry, Option.some.injEq] at h
    exact ⟨cd, rfl, h.symm⟩
  | str s => simp [processCollectionEntry] at h
  | num n => simp [processCollectionEntry] at h
  | bool b2 => simp [processCollectionEntry] at h
  | null => simp [processCollectionEntry] at h
  | arr a2 => simp [processCollectionEntry] at h

theorem runPhase2Aux_fields (l : List ((JVal × JVal) × CollEnv)) :
    ∀ (acc r : Counts × List Call), runPhase2Aux acc l = some r →
    r.1.created_count = acc.1.created_count
    ∧ r.1.updated_count = acc.1.updated_count
    ∧ r.1.skipped_count = acc.1.skipped_count
    ∧ r.1.error_count
        = acc.1.error_count
          + (l.filter (fun x => collIterRaises x.2 x.1.2)).length := by
  induction l with
  | nil =>
    intro acc r hr
    simp only [runPhase2Aux] at hr
    cases hr
    simp
  | cons pe rest ih =>
    intro acc r hr
    obtain ⟨⟨pid, c⟩, env⟩ := pe
    simp only [runPhase2Aux] at hr
    cases hp : processCollectionEntry env pid c with
    | none => rw [hp] at hr; cases hr
    | some rstep =>
      rw [hp] at hr
      obtain ⟨cd, rfl, rfl⟩ := processCollectionEntry_some hp
      have hpc := processCollection_fields env pid cd
      have hih := ih _ r hr
      refine ⟨?_, ?_, ?_, ?_⟩
      · rw [hih.1]; simp [addCounts, hpc.1]
      · rw [hih.2.1]; simp [addCounts, hpc.2.1]
      · rw [hih.2.2.1]; simp [addCounts, hpc.2.2.1]
      · rw [hih.2.2.2]
        by_cases hx : collIterRaises env (.obj cd) = true
        · simp [List.filter_cons, hx, addCounts, hpc.2.2.2]
          omega
        · simp [List.filter_cons, hx, addCounts, hpc.2.2.2]

theorem runPhase2_sum4 (l : List ((JVal × JVal) × CollEnv))
    (r : Counts × List Call) (hr : runPhase2 l = some r) :
    countsSum4 r.1 = (l.filter (fun x => collIterRaises x.2 x.1.2)).length := by
  unfold runPhase2 at hr
  have h := runPhase2Aux_fields l (zeroCounts, []) r hr
  simp only [countsSum4]
  rw [h.1, h.2.1, h.2.2.1, h.2.2.2]
  simp [zeroCounts]

/-- C4 amended: for a run over a source product list of size N with zero
invalid entries (every entry a dict carrying an identifier, as phase-1
completion in fact forces — a non-dict entry would crash the per-product
handler and abort the run with no report at all), whose successful write
responses carry an identifier, and which completes and reports: each source
product contributes exactly one increment to exactly one of the created,
updated, skipped and error counters during phase 1, but every phase-2
iteration that raises outside the inner create/associate handlers (a
failing destination-collection lookup, or a collection record without a
title) adds one more error; so the reported created + updated + skipped +
errors sum is N plus the number of such phase-2 raises, and equals N
exactly when phase 2 raises nowhere. -/
theorem C4_sum_counts_with_phase2_errors (p1 : List (JVal × ProdEnv))
    (envs2 : List CollEnv) (r : Counts × PMap × List Call)
    (hv : ∀ pe ∈ p1, productHasId pe.1 = true)
    (hwf : ∀ pe ∈ p1, WFwrite pe.2)
    (hr : migrate_products p1 envs2 = some r) :
    countsSum4 r.1
      = p1.length
        + (((phase2Pairs r.2.1).zip envs2).filter
            (fun x => collIterRaises x.2 x.1.2)).length := by
  simp only [migrate_products] at hr
  cases h1 : runPhase1 p1 with
  | none => rw [h1] at hr; simp at hr
  | some r1 =>
    simp only [h1] at hr
    cases h2 : runPhase2 ((phase2Pairs r1.2.1).zip envs2) with
    | none => rw [h2] at hr; simp at hr
    | some r2 =>
      rw [h2] at hr
      simp at hr
      subst hr
      show countsSum4 (addCounts r1.1 r2.1)
        = p1.length + (((phase2Pairs r1.2.1).zip envs2).filter
            (fun x => collIterRaises x.2 x.1.2)).length
      rw [countsSum4_addCounts, runPhase1_sum4 p1 r1 hwf h1,
          runPhase2_sum4 _ r2 h2]

def c4prod : JObj :=
  .cons "id" (.num 1)
    (.cons "title" (.str "Shirt")
      (.cons "variants"
        (.arr (.cons (.obj (.cons "sku" (.str "S1") .nil)) .nil)) .nil))

def c4env1 : ProdEnv :=
  ⟨.ok [.obj (.cons "title" (.str "Summer") .nil)], .ok none,
   .ok (.obj (.cons "id" (.num 42) .nil))⟩

def c4cenv : CollEnv := ⟨.error (), .ok .null, .ok .null⟩

/-- C4 counterexample: a run over a single, fully valid source product (a
dict carrying an id, a variants list and a truthy first-variant SKU, whose
create succeeds) whose one recorded collection hits a failing destination
lookup in phase 2.  The run completes and reports, N = 1, but the final
counters are created = 1 and errors = 1, so created + updated + skipped +
errors = 2 ≠ N. -/
theorem C4_counterexample_sum_exceeds_n :
    [(JVal.obj c4prod, c4env1)].length = 1
    ∧ productHasId (JVal.obj c4prod) = true
    ∧ Option.map (fun r => countsSum4 r.1)
        (migrate_products [(JVal.obj c4prod, c4env1)] [c4cenv]) = some 2
    ∧ Option.map (fun r => r.1.created_count)
        (migrate_products [(JVal.obj c4prod, c4env1)] [c4cenv]) = some 1
    ∧ Option.map (fun r => r.1.error_count)
        (migrate_products [(JVal.obj c4prod, c4env1)] [c4cenv]) = some 1 := by
  refine ⟨rfl, by decide, by decide, by decide, by decide⟩

/-- The full result of the counterexample run, used to instantiate the
amended theorem. -/
def c4r : Counts × PMap × List Call :=
  (⟨1, 0, 0, 1, 0⟩,
   [(JVal.num 42, [JVal.obj (.cons "title" (.str "Summer") .nil)])],
   [Call.getProductCollections (.num 1), Call.getProductBySku (.str "S1"),
    Call.createProduct, Call.getCollectionByTitle (.str "Summer")])

theorem C4_witness :
    countsSum4 c4r.1
      = [(JVal.obj c4prod, c4env1)].length
        + (((phase2Pairs c4r.2.1).zip [c4cenv]).filter
            (fun x => collIterRaises x.2 x.1.2)).length := by
  refine C4_sum_counts_with_phase2_errors [(JVal.obj c4prod, c4env1)] [c4cenv]
    c4r ?_ ?_ (by decide)
  · intro pe hpe
    simp only [List.mem_singleton] at hpe
    subst hpe
    decide
  · intro pe hpe
    simp only [List.mem_singleton] at hpe
    subst hpe
    intro m hm
    have hm2 : (Except.ok (JVal.obj (.cons "id" (.num 42) .nil)) : Except Unit JVal)
        = Except.ok m := hm
    obtain rfl := Except.ok.inj hm2
    exact Or.inr ⟨.cons "id" (.num 42) .nil, rfl, by decide⟩
